import Mathlib

/-!
Verification of the stock-data ingestion pipeline
(repo/libs/fetcher.py, repo/libs/db.py).

Shallow embedding conventions:
- JSON objects are association lists that preserve insertion order,
  mirroring Python dict iteration order.
- Python float values are modelled as rationals; every numeric literal
  appearing in the specification claims is an exact decimal, hence exactly
  representable both in binary floating point and in the rational model.
- Python `float(s)` and `int(s)` are modelled by `parseFloat` and
  `parseInt` over decimal strings with an optional sign and (for floats)
  an optional fractional part; scientific notation, infinities, NaN,
  surrounding whitespace and underscore separators, which Python also
  accepts, do not occur in any input exercised here.
- Fallible code returns Option or Except; code that consults the network
  or the database is parameterised by an outcome oracle.
-/

/-- A per-date value mapping of the upstream payload: measurement labels
(such as the string made of the characters 1, dot, space, o, p, e, n)
mapped to string values, in insertion order. -/
abbrev ValuesMap := List (String × String)

/-- The time-series mapping: date string to value mapping, insertion order. -/
abbrev TsMap := List (String × ValuesMap)

/-- A decoded top-level JSON response body: keys in insertion order. Only the
value under a key prefixed by the time-series marker is ever read as a
mapping, so other values are modelled with the same type. -/
abbrev JsonData := List (String × TsMap)

/-- Fold a list of decimal digit characters into a natural number;
48 is the code point of the digit zero. -/
def digitsToNat (ds : List Char) : Nat :=
  ds.foldl (fun n c => n * 10 + (c.toNat - 48)) 0

/-- Model of Python float(s) on the string forms relevant here:
optional sign, decimal digits, optional dot and fractional digits,
at least one digit overall. Returns none when Python float would raise. -/
def parseFloat (s : String) : Option ℚ :=
  let core (cs : List Char) (sign : ℚ) : Option ℚ :=
    let intPart := cs.takeWhile (fun c => c ≠ '.')
    let rest := cs.dropWhile (fun c => c ≠ '.')
    match rest with
    | [] =>
      if intPart ≠ [] ∧ intPart.all Char.isDigit then
        some (sign * (digitsToNat intPart : ℚ))
      else none
    | '.' :: frac =>
      if intPart.all Char.isDigit ∧ frac.all Char.isDigit ∧
          (intPart ≠ [] ∨ frac ≠ []) then
        some (sign * ((digitsToNat intPart : ℚ) +
          (digitsToNat frac : ℚ) / (10 ^ frac.length : ℚ)))
      else none
    | _ => none
  match s.data with
  | '-' :: r => core r (-1)
  | '+' :: r => core r 1
  | r => core r 1

/-- Model of Python int(s) on the string forms relevant here:
optional sign then decimal digits. Returns none when int would raise
(in particular on a string containing a decimal point). -/
def parseInt (s : String) : Option ℤ :=
  let core (cs : List Char) (sign : ℤ) : Option ℤ :=
    if cs ≠ [] ∧ cs.all Char.isDigit then some (sign * (digitsToNat cs : ℤ))
    else none
  match s.data with
  | '-' :: r => core r (-1)
  | '+' :: r => core r 1
  | r => core r 1

/-- Model of Python str.startswith, via the character lists. -/
def strStartsWith (s pre : String) : Bool := pre.data.isPrefixOf s.data

/-- Model of Python str.strip(): drop leading and trailing whitespace. -/
def pyStrip (s : String) : String :=
  ⟨((s.data.dropWhile Char.isWhitespace).reverse.dropWhile Char.isWhitespace).reverse⟩

/-- values.get(k) filtered through Python truthiness: a missing key gives
None (falsy) and an empty string is falsy, so both fall through the
or-chain of parse_daily_response; any other string is truthy. -/
def getTruthy (m : ValuesMap) (k : String) : Option String :=
  match m.lookup k with
  | some v => if v = "" then none else some v
  | none => none

/-- One price field of parse_daily_response:
float(values.get(k1) or values.get(k2) or 0.0).
If both lookups are falsy the literal 0.0 is used (no parsing, cannot
raise); otherwise the first truthy string is given to float, and none
models the exception that aborts the entry. -/
def parseFieldQ (m : ValuesMap) (k1 k2 : String) : Option ℚ :=
  match getTruthy m k1 <|> getTruthy m k2 with
  | some s => parseFloat s
  | none => some 0

/-- The volume field: int(values.get(k1) or values.get(k2) or 0). -/
def parseFieldZ (m : ValuesMap) (k1 k2 : String) : Option ℤ :=
  match getTruthy m k1 <|> getTruthy m k2 with
  | some s => parseInt s
  | none => some 0

/-- One normalized row of parse_daily_response. Field names follow the
local variable names of the source (open_p, high_p, low_p, close_p);
symbol is stripped, raw keeps the original per-date value mapping. -/
structure PriceBar where
  symbol : String
  ts : String
  open_p : ℚ
  high_p : ℚ
  low_p : ℚ
  close_p : ℚ
  volume : ℤ
  raw : ValuesMap
  deriving DecidableEq, Repr

/-- The try-block body of parse_daily_response for a single date entry:
parse the four prices and the volume; none models the exception path
(logger.warning then continue), which skips the entry. -/
def parseDailyEntry (symbol ts : String) (values : ValuesMap) : Option PriceBar :=
  match parseFieldQ values "1. open" "open", parseFieldQ values "2. high" "high",
        parseFieldQ values "3. low" "low", parseFieldQ values "4. close" "close",
        parseFieldZ values "6. volume" "volume" with
  | some o, some h, some l, some c, some v =>
    some { symbol := pyStrip symbol, ts := ts, open_p := o, high_p := h,
           low_p := l, close_p := c, volume := v, raw := values }
  | _, _, _, _, _ => none

/-- The first key of json_data that starts with the time-series marker,
mirroring the for-loop with break in parse_daily_response. -/
def tsKeyOf (data : JsonData) : Option String :=
  (data.find? fun kv => strStartsWith kv.1 "Time Series").map fun kv => kv.1

/-- parse_daily_response: locate the time-series key (no key gives []),
take its mapping with json_data.get(ts_key, empty), and keep one row per
entry whose parsing succeeds, in insertion order. -/
def parse_daily_response (symbol : String) (data : JsonData) : List PriceBar :=
  match tsKeyOf data with
  | none => []
  | some k =>
    ((data.lookup k).getD []).filterMap fun p => parseDailyEntry symbol p.1 p.2

/-! ## Fetcher model (fetch_daily_time_series) -/

/-- Membership of a key in a decoded body, mirroring the Python `in` test. -/
def hasKey (data : JsonData) (k : String) : Bool :=
  data.any fun kv => kv.1 == k

/-- What session.get followed by resp.json() delivers on one attempt:
a raised Timeout or ConnectionError, or a response with a status code
whose body either fails JSON decoding (ValueError) or decodes to data. -/
inductive BodyOutcome where
  | decodeFail
  | json (data : JsonData)
  deriving DecidableEq

/-- The network-level outcome of one attempt. -/
inductive HttpOutcome where
  | netExc
  | resp (status : Nat) (body : BodyOutcome)
  deriving DecidableEq

/-- Control-flow result of one loop iteration of fetch_daily_time_series. -/
inductive StepRes where
  | retry
  | giveUp
  | success (data : JsonData)
  deriving DecidableEq

/-- One iteration of the retry loop, exactly in source order:
Timeout/ConnectionError is retried; a 5xx status is retried;
raise_for_status on a 4xx raises an HTTPError that the generic
except-branch retries; a JSON decode ValueError returns None at once;
a body with the Note key is retried; a body with the Error Message key
returns None at once; a body with no key starting with the time-series
marker is retried; otherwise the body is returned. -/
def stepOf : HttpOutcome → StepRes
  | .netExc => .retry
  | .resp status body =>
    if 500 ≤ status ∧ status < 600 then .retry
    else if 400 ≤ status ∧ status < 600 then .retry
    else match body with
      | .decodeFail => .giveUp
      | .json data =>
        if hasKey data "Note" then .retry
        else if hasKey data "Error Message" then .giveUp
        else if data.any (fun kv => strStartsWith kv.1 "Time Series") then .success data
        else .retry

/-- The retry loop of fetch_daily_time_series: remaining iterations and the
number of attempts already made (which indexes the response oracle).
Returns the fetched data (or none) together with the number of attempts
actually performed. Falling out of the loop returns None. -/
def fetchLoop (responses : Nat → HttpOutcome) : Nat → Nat → Option JsonData × Nat
  | 0, used => (none, used)
  | rem + 1, used =>
    match stepOf (responses used) with
    | .retry => fetchLoop responses rem (used + 1)
    | .giveUp => (none, used + 1)
    | .success d => (some d, used + 1)

/-- fetch_daily_time_series: a None api_key argument falls back to the
API_KEY environment variable; a missing or empty resolved key logs an
error and returns None before any request; otherwise the retry loop runs
for at most maxRetries attempts against the response oracle. -/
def fetch_daily_time_series (apiKey envApiKey : Option String) (maxRetries : Nat)
    (responses : Nat → HttpOutcome) : Option JsonData × Nat :=
  match (match apiKey with | none => envApiKey | some k => some k) with
  | none => (none, 0)
  | some k => if k = "" then (none, 0) else fetchLoop responses maxRetries 0

/-! ## Store model (upsert_stock_rows) -/

/-- The chunking performed by `for i in range(0, len(tuples), batch_size)`
with slices tuples[i : i + batch_size]. The rows are generic: the source
first projects each row dict to a tuple, a length-preserving map that
affects neither chunk boundaries nor control flow. A zero batch size is
a ValueError in Python and never arises; it is mapped to no chunks. -/
def chunksOf (bs : Nat) (l : List α) : List (List α) :=
  if h : bs = 0 then []
  else match l with
    | [] => []
    | x :: xs => (x :: xs).take bs :: chunksOf bs ((x :: xs).drop bs)
termination_by l.length
decreasing_by
  simpa using Nat.sub_lt (Nat.succ_pos xs.length) (Nat.pos_of_ne_zero h)

/-- The per-chunk while-loop of upsert_stock_rows, with fuel = remaining
admissible attempts and a = the zero-based attempt index consulting the
write oracle. ok true means execute_values plus commit succeeded
(.ok true = chunk written, break); a failure on the final admissible
attempt raises RuntimeError with the fixed message; fuel running out
without an attempt (only possible when DB_MAX_RETRIES is 0) exits the
while-loop with the chunk unwritten (.ok false). -/
def runChunkGo (ok : Nat → Bool) : Nat → Nat → Except String Bool
  | 0, _ => .ok false
  | rem + 1, a =>
    if ok a then .ok true
    else if rem = 0 then .error "Failed to upsert batch after retries"
    else runChunkGo ok rem (a + 1)

/-- Retry loop for one chunk, starting at attempt index 0. -/
def runChunk (ok : Nat → Bool) (maxRetries : Nat) : Except String Bool :=
  runChunkGo ok maxRetries 0

/-- The chunk iteration of upsert_stock_rows: idx is the zero-based chunk
index consulting the write oracle, total the running count of rows of
successfully written chunks. An error propagates (the RuntimeError
raised from the chunk retry loop aborts the whole call). -/
def upsertGo (maxRetries : Nat) (writeOk : Nat → Nat → Bool) :
    List (List α) → Nat → Nat → Except String Nat
  | [], _, total => .ok total
  | c :: cs, idx, total =>
    match runChunk (writeOk idx) maxRetries with
    | .error e => .error e
    | .ok true => upsertGo maxRetries writeOk cs (idx + 1) (total + c.length)
    | .ok false => upsertGo maxRetries writeOk cs (idx + 1) total

/-- upsert_stock_rows: empty input returns 0 at once; otherwise the rows
are chunked and each chunk is written with its own bounded retry loop,
and on success the total number of rows attempted is returned.
writeOk chunkIndex attemptIndex tells whether that write succeeds. -/
def upsert_stock_rows (rows : List α) (batchSize : Nat) (maxRetries : Nat)
    (writeOk : Nat → Nat → Bool) : Except String Nat :=
  if rows.isEmpty then .ok 0
  else upsertGo maxRetries writeOk (chunksOf batchSize rows) 0 0

/-! ## Concrete payloads used in witnesses and counterexamples -/

/-- The per-date entry of the specification example. -/
def exampleValues : ValuesMap :=
  [("1. open", "10.5"), ("2. high", "11.0"), ("3. low", "10.0"),
   ("4. close", "10.8"), ("6. volume", "1000")]

/-- An entry in which exactly the open field is present but unparseable
while every other field parses normally. -/
def badOpenValues : ValuesMap :=
  [("1. open", "abc"), ("2. high", "11.0"), ("3. low", "10.0"),
   ("4. close", "10.8"), ("6. volume", "1000")]

/-- A decoded body carrying both the rate-limit marker and the explicit
error-message key. -/
def noteAndError : JsonData := [("Note", []), ("Error Message", [])]

/-- A payload whose time-series mapping holds one unparseable entry
followed by one well-formed entry. -/
def mixedData : JsonData :=
  [("Time Series (Daily)",
    [("2024-01-02", badOpenValues), ("2024-01-03", exampleValues)])]

/-! ## Normalizer lemmas -/

lemma parseDailyEntry_some (sym ts : String) (v : ValuesMap) (b : PriceBar)
    (h : parseDailyEntry sym ts v = some b) :
    b.ts = ts ∧ b.symbol = pyStrip sym ∧ b.raw = v := by
  unfold parseDailyEntry at h
  split at h
  · rw [Option.some.injEq] at h
    subst h
    exact ⟨rfl, rfl, rfl⟩
  · simp at h

lemma filterMap_map_ts (sym : String) : ∀ (tsm : TsMap),
    ((tsm.filterMap fun p => parseDailyEntry sym p.1 p.2).map PriceBar.ts)
      = (tsm.filter fun p => (parseDailyEntry sym p.1 p.2).isSome).map Prod.fst
  | [] => rfl
  | p :: rest => by
    rcases h : parseDailyEntry sym p.1 p.2 with _ | b
    · simp [List.filterMap_cons, List.filter_cons, h, filterMap_map_ts sym rest]
    · have hts := (parseDailyEntry_some sym p.1 p.2 b h).1
      simp [List.filterMap_cons, List.filter_cons, h, filterMap_map_ts sym rest, hts]

lemma getTruthy_none_of_falsy (m : ValuesMap) (k : String)
    (h : m.lookup k = none ∨ m.lookup k = some "") : getTruthy m k = none := by
  rcases h with h | h <;> simp [getTruthy, h]

/-! ## Claim C1 -/

/-- C1, counterexample. The claim says an entry whose open field is present
but unparseable still yields a PriceBar with open substituted by 0.0. In
the code the truthy string reaches float(), which raises, and the except
branch skips the whole entry: exactly one field is unparseable (the four
others parse normally), yet no PriceBar at all is emitted. -/
theorem c1_counterexample :
    parseFieldQ badOpenValues "2. high" "high" = some 11
    ∧ parseFieldQ badOpenValues "3. low" "low" = some 10
    ∧ parseFieldQ badOpenValues "4. close" "close" = some (54 / 5)
    ∧ parseFieldZ badOpenValues "6. volume" "volume" = some 1000
    ∧ parseFieldQ badOpenValues "1. open" "open" = none
    ∧ parse_daily_response "AAPL"
        [("Time Series (Daily)", [("2024-01-02", badOpenValues)])] = [] := by
  refine ⟨?_, ?_, ?_, ?_, rfl, rfl⟩
  · simp [parseFieldQ, badOpenValues, getTruthy, List.lookup, parseFloat,
          List.takeWhile, List.dropWhile, digitsToNat]
  · simp [parseFieldQ, badOpenValues, getTruthy, List.lookup, parseFloat,
          List.takeWhile, List.dropWhile, digitsToNat]
  · simp [parseFieldQ, badOpenValues, getTruthy, List.lookup, parseFloat,
          List.takeWhile, List.dropWhile, digitsToNat]
    norm_num
  · simp [parseFieldZ, badOpenValues, getTruthy, List.lookup, parseInt, digitsToNat]

lemma parseDailyEntry_example203 :
    parseDailyEntry "AAPL" "2024-01-03" exampleValues
      = some { symbol := "AAPL", ts := "2024-01-03", open_p := 10.5, high_p := 11,
               low_p := 10, close_p := 10.8, volume := 1000, raw := exampleValues } := by
  have h1 : parseFieldQ exampleValues "1. open" "open" = some (10.5 : ℚ) := by
    simp [parseFieldQ, exampleValues, getTruthy, List.lookup, parseFloat,
          List.takeWhile, List.dropWhile, digitsToNat]
    norm_num
  have h2 : parseFieldQ exampleValues "2. high" "high" = some 11 := by
    simp [parseFieldQ, exampleValues, getTruthy, List.lookup, parseFloat,
          List.takeWhile, List.dropWhile, digitsToNat]
  have h3 : parseFieldQ exampleValues "3. low" "low" = some 10 := by
    simp [parseFieldQ, exampleValues, getTruthy, List.lookup, parseFloat,
          List.takeWhile, List.dropWhile, digitsToNat]
  have h4 : parseFieldQ exampleValues "4. close" "close" = some (10.8 : ℚ) := by
    simp [parseFieldQ, exampleValues, getTruthy, List.lookup, parseFloat,
          List.takeWhile, List.dropWhile, digitsToNat]
    norm_num
  have h5 : parseFieldZ exampleValues "6. volume" "volume" = some 1000 := by
    simp [parseFieldZ, exampleValues, getTruthy, List.lookup, parseInt, digitsToNat]
  unfold parseDailyEntry
  rw [h1, h2, h3, h4, h5]
  rfl

/-- C1, amended: when any of the open/high/low/close fields is present
(under the numbered label or, failing that, the plain label) with a
non-empty value that does not parse as a number, that field parse fails;
a failed parse of any of the four price fields skips the entire entry,
so no PriceBar is emitted for it, while every other entry that parses
still yields its bar in the output; the 0.0 substitution applies only to
a field that is absent or empty under both labels. -/
theorem c1_amended :
    (∀ (m : ValuesMap) (k1 k2 s : String),
      (getTruthy m k1 <|> getTruthy m k2) = some s →
      parseFloat s = none → parseFieldQ m k1 k2 = none)
    ∧ (∀ (sym ts : String) (m : ValuesMap),
      parseFieldQ m "1. open" "open" = none ∨ parseFieldQ m "2. high" "high" = none
      ∨ parseFieldQ m "3. low" "low" = none ∨ parseFieldQ m "4. close" "close" = none →
      parseDailyEntry sym ts m = none)
    ∧ (∀ (sym : String) (data : JsonData) (k : String) (tsm : TsMap),
      tsKeyOf data = some k → data.lookup k = some tsm →
      ∀ p ∈ tsm, ∀ b, parseDailyEntry sym p.1 p.2 = some b →
        b ∈ parse_daily_response sym data) := by
  refine ⟨?_, ?_, ?_⟩
  · intro m k1 k2 s hget hpf
    unfold parseFieldQ
    rw [hget]
    exact hpf
  · intro sym ts m h
    unfold parseDailyEntry
    rcases h1 : parseFieldQ m "1. open" "open" with _ | o
    · rfl
    rcases h2 : parseFieldQ m "2. high" "high" with _ | hi
    · rfl
    rcases h3 : parseFieldQ m "3. low" "low" with _ | lo
    · rfl
    rcases h4 : parseFieldQ m "4. close" "close" with _ | cl
    · rfl
    rcases h with h | h | h | h
    · rw [h1] at h
      simp at h
    · rw [h2] at h
      simp at h
    · rw [h3] at h
      simp at h
    · rw [h4] at h
      simp at h
  · intro sym data k tsm hk hlook p hp b hb
    unfold parse_daily_response
    rw [hk]
    simp only [hlook, Option.getD_some]
    exact List.mem_filterMap.mpr ⟨p, hp, hb⟩

/-- C1, witness for the amended theorem: a numbered-label unparseable open
field and a plain-label unparseable high field each fail and skip their
entry, and the well-formed entry of the same payload as the bad open
entry still yields its bar. -/
theorem c1_amended_witness :
    parseFieldQ badOpenValues "1. open" "open" = none
    ∧ parseFieldQ [("high", "oops")] "2. high" "high" = none
    ∧ parseDailyEntry "AAPL" "2024-01-02" badOpenValues = none
    ∧ parseDailyEntry "AAPL" "2024-01-02" [("high", "oops")] = none
    ∧ ({ symbol := "AAPL", ts := "2024-01-03", open_p := 10.5, high_p := 11,
         low_p := 10, close_p := 10.8, volume := 1000, raw := exampleValues } : PriceBar)
        ∈ parse_daily_response "AAPL" mixedData :=
  ⟨c1_amended.1 badOpenValues "1. open" "open" "abc" rfl rfl,
   c1_amended.1 [("high", "oops")] "2. high" "high" "oops" rfl rfl,
   c1_amended.2.1 "AAPL" "2024-01-02" badOpenValues
     (Or.inl (c1_amended.1 badOpenValues "1. open" "open" "abc" rfl rfl)),
   c1_amended.2.1 "AAPL" "2024-01-02" [("high", "oops")]
     (Or.inr (Or.inl (c1_amended.1 [("high", "oops")] "2. high" "high" "oops" rfl rfl))),
   c1_amended.2.2 "AAPL" mixedData "Time Series (Daily)"
     [("2024-01-02", badOpenValues), ("2024-01-03", exampleValues)] rfl rfl
     ("2024-01-03", exampleValues) (by decide) _ parseDailyEntry_example203⟩

/-! ## Claim C4 -/

/-- C4: for every well-formed payload (every entry of the time-series
mapping parses), parse_daily_response emits exactly one PriceBar per
date entry in the mapping in insertion order (the emitted timestamps
are exactly the mapping keys in order); and the specification example
entry normalizes to exactly the stated record. -/
theorem c4 :
    (∀ (sym : String) (data : JsonData) (k : String) (tsm : TsMap),
      tsKeyOf data = some k → data.lookup k = some tsm →
      (∀ p ∈ tsm, (parseDailyEntry sym p.1 p.2).isSome) →
      (parse_daily_response sym data).map PriceBar.ts = tsm.map Prod.fst)
    ∧ parse_daily_response "AAPL"
        [("Time Series (Daily)", [("2024-01-02", exampleValues)])]
      = [{ symbol := "AAPL", ts := "2024-01-02", open_p := 10.5, high_p := 11,
           low_p := 10, close_p := 10.8, volume := 1000, raw := exampleValues }] := by
  constructor
  · intro sym data k tsm hk hlook hall
    unfold parse_daily_response
    rw [hk]
    simp only [hlook, Option.getD_some]
    rw [filterMap_map_ts]
    congr 1
    exact List.filter_eq_self.mpr fun p hp => hall p hp
  · have h1 : parseFieldQ exampleValues "1. open" "open" = some (10.5 : ℚ) := by
      simp [parseFieldQ, exampleValues, getTruthy, List.lookup, parseFloat,
            List.takeWhile, List.dropWhile, digitsToNat]
      norm_num
    have h2 : parseFieldQ exampleValues "2. high" "high" = some 11 := by
      simp [parseFieldQ, exampleValues, getTruthy, List.lookup, parseFloat,
            List.takeWhile, List.dropWhile, digitsToNat]
    have h3 : parseFieldQ exampleValues "3. low" "low" = some 10 := by
      simp [parseFieldQ, exampleValues, getTruthy, List.lookup, parseFloat,
            List.takeWhile, List.dropWhile, digitsToNat]
    have h4 : parseFieldQ exampleValues "4. close" "close" = some (10.8 : ℚ) := by
      simp [parseFieldQ, exampleValues, getTruthy, List.lookup, parseFloat,
            List.takeWhile, List.dropWhile, digitsToNat]
      norm_num
    have h5 : parseFieldZ exampleValues "6. volume" "volume" = some 1000 := by
      simp [parseFieldZ, exampleValues, getTruthy, List.lookup, parseInt, digitsToNat]
    have hpd : parseDailyEntry "AAPL" "2024-01-02" exampleValues
        = some { symbol := "AAPL", ts := "2024-01-02", open_p := 10.5, high_p := 11,
                 low_p := 10, close_p := 10.8, volume := 1000, raw := exampleValues } := by
      unfold parseDailyEntry
      rw [h1, h2, h3, h4, h5]
      rfl
    show (([("2024-01-02", exampleValues)] : TsMap).filterMap
        fun p => parseDailyEntry "AAPL" p.1 p.2) = _
    simp [List.filterMap_cons, hpd]

/-- C4, witness: the general part applied to the example payload. -/
theorem c4_witness :
    (parse_daily_response "AAPL"
        [("Time Series (Daily)", [("2024-01-02", exampleValues)])]).map PriceBar.ts
      = ([("2024-01-02", exampleValues)] : TsMap).map Prod.fst :=
  c4.1 "AAPL" [("Time Series (Daily)", [("2024-01-02", exampleValues)])]
    "Time Series (Daily)" [("2024-01-02", exampleValues)] rfl rfl (by decide)

/-! ## Claim C7 -/

/-- C7: a time-series mapping containing an entry whose parsing fails
still yields one PriceBar for every other entry that parses: the emitted
timestamps are exactly the dates of the successfully parsing entries in
order, and every bar of a successful entry is in the output — a bad
entry never truncates or aborts the remaining entries. -/
theorem c7 (sym : String) (data : JsonData) (k : String) (tsm : TsMap)
    (hk : tsKeyOf data = some k) (hlook : data.lookup k = some tsm)
    (bad : String × ValuesMap) (hbadMem : bad ∈ tsm)
    (hbad : parseDailyEntry sym bad.1 bad.2 = none) :
    (parse_daily_response sym data).map PriceBar.ts
      = (tsm.filter fun p => (parseDailyEntry sym p.1 p.2).isSome).map Prod.fst
    ∧ ∀ p ∈ tsm, ∀ b, parseDailyEntry sym p.1 p.2 = some b →
        b ∈ parse_daily_response sym data := by
  unfold parse_daily_response
  rw [hk]
  simp only [hlook, Option.getD_some]
  refine ⟨filterMap_map_ts sym tsm, ?_⟩
  intro p hp b hb
  exact List.mem_filterMap.mpr ⟨p, hp, hb⟩

/-- C7, witness: a payload with one unparseable entry and one good entry;
the good entry survives with its bar emitted. -/
theorem c7_witness :
    ((parse_daily_response "AAPL" mixedData).map PriceBar.ts
      = (([("2024-01-02", badOpenValues), ("2024-01-03", exampleValues)] : TsMap).filter
          fun p => (parseDailyEntry "AAPL" p.1 p.2).isSome).map Prod.fst)
    ∧ ∀ p ∈ ([("2024-01-02", badOpenValues), ("2024-01-03", exampleValues)] : TsMap),
        ∀ b, parseDailyEntry "AAPL" p.1 p.2 = some b →
          b ∈ parse_daily_response "AAPL" mixedData :=
  c7 "AAPL" mixedData "Time Series (Daily)"
    [("2024-01-02", badOpenValues), ("2024-01-03", exampleValues)]
    rfl rfl ("2024-01-02", badOpenValues) (by decide) (by decide)

/-! ## Claim C10 -/

/-- C10: a measurement field whose numbered and plain labels are both
absent or bound to the empty string is substituted by the default
(0 for prices, 0 for volume) without failing; and an entry is skipped
only when one of the five field parses fails, which by the first two
parts can never be caused by an absent-or-empty field. -/
theorem c10 :
    (∀ (m : ValuesMap) (k1 k2 : String),
      (m.lookup k1 = none ∨ m.lookup k1 = some "") →
      (m.lookup k2 = none ∨ m.lookup k2 = some "") →
      parseFieldQ m k1 k2 = some 0)
    ∧ (∀ (m : ValuesMap) (k1 k2 : String),
      (m.lookup k1 = none ∨ m.lookup k1 = some "") →
      (m.lookup k2 = none ∨ m.lookup k2 = some "") →
      parseFieldZ m k1 k2 = some 0)
    ∧ (∀ (sym ts : String) (m : ValuesMap), parseDailyEntry sym ts m = none →
      parseFieldQ m "1. open" "open" = none ∨ parseFieldQ m "2. high" "high" = none
      ∨ parseFieldQ m "3. low" "low" = none ∨ parseFieldQ m "4. close" "close" = none
      ∨ parseFieldZ m "6. volume" "volume" = none) := by
  refine ⟨?_, ?_, ?_⟩
  · intro m k1 k2 h1 h2
    simp [parseFieldQ, getTruthy_none_of_falsy m k1 h1, getTruthy_none_of_falsy m k2 h2]
  · intro m k1 k2 h1 h2
    simp [parseFieldZ, getTruthy_none_of_falsy m k1 h1, getTruthy_none_of_falsy m k2 h2]
  · intro sym ts m h
    rcases h1 : parseFieldQ m "1. open" "open" with _ | o
    · exact Or.inl rfl
    rcases h2 : parseFieldQ m "2. high" "high" with _ | hi
    · exact Or.inr (Or.inl rfl)
    rcases h3 : parseFieldQ m "3. low" "low" with _ | lo
    · exact Or.inr (Or.inr (Or.inl rfl))
    rcases h4 : parseFieldQ m "4. close" "close" with _ | cl
    · exact Or.inr (Or.inr (Or.inr (Or.inl rfl)))
    rcases h5 : parseFieldZ m "6. volume" "volume" with _ | vo
    · exact Or.inr (Or.inr (Or.inr (Or.inr rfl)))
    unfold parseDailyEntry at h
    rw [h1, h2, h3, h4, h5] at h
    simp at h

/-- C10, witness: an entry with no fields at all yields the all-default
bar fields, and the disjunction applied at the bad-open entry. -/
theorem c10_witness :
    parseFieldQ [] "1. open" "open" = some 0
    ∧ parseFieldZ [] "6. volume" "volume" = some 0
    ∧ (parseFieldQ badOpenValues "1. open" "open" = none
       ∨ parseFieldQ badOpenValues "2. high" "high" = none
       ∨ parseFieldQ badOpenValues "3. low" "low" = none
       ∨ parseFieldQ badOpenValues "4. close" "close" = none
       ∨ parseFieldZ badOpenValues "6. volume" "volume" = none) :=
  ⟨c10.1 [] "1. open" "open" (Or.inl rfl) (Or.inl rfl),
   c10.2.1 [] "6. volume" "volume" (Or.inl rfl) (Or.inl rfl),
   c10.2.2 "AAPL" "2024-01-02" badOpenValues (by decide)⟩

/-! ## Fetcher lemmas -/

lemma stepOf_note (s : Nat) (hs : s < 400) (d : JsonData)
    (hn : hasKey d "Note" = true) : stepOf (.resp s (.json d)) = .retry := by
  simp only [stepOf]
  rw [if_neg (by omega), if_neg (by omega)]
  simp [hn]

lemma stepOf_errorMessage (s : Nat) (hs : s < 400) (d : JsonData)
    (hn : hasKey d "Note" = false) (he : hasKey d "Error Message" = true) :
    stepOf (.resp s (.json d)) = .giveUp := by
  simp only [stepOf]
  rw [if_neg (by omega), if_neg (by omega)]
  simp [hn, he]

lemma fetchLoop_allRetry (responses : Nat → HttpOutcome) :
    ∀ (rem used : Nat),
    (∀ i, used ≤ i → i < used + rem → stepOf (responses i) = .retry) →
    fetchLoop responses rem used = (none, used + rem)
  | 0, used, _ => rfl
  | rem + 1, used, h => by
    rw [fetchLoop, h used (Nat.le_refl used) (by omega)]
    rw [fetchLoop_allRetry responses rem (used + 1)
      (fun i hi1 hi2 => h i (by omega) (by omega))]
    rw [show used + 1 + rem = used + (rem + 1) by omega]

lemma fetchLoop_giveUpAt (responses : Nat → HttpOutcome) :
    ∀ (i rem used : Nat), i < rem →
    (∀ j, j < i → stepOf (responses (used + j)) = .retry) →
    stepOf (responses (used + i)) = .giveUp →
    fetchLoop responses rem used = (none, used + i + 1)
  | 0, rem + 1, used, _, _, hg => by
    rw [fetchLoop]
    rw [show used + 0 = used by omega] at hg
    rw [hg]
  | i + 1, rem + 1, used, hi, hprev, hg => by
    rw [fetchLoop]
    have h0 : stepOf (responses used) = .retry := by
      have := hprev 0 (by omega)
      rwa [show used + 0 = used by omega] at this
    rw [h0]
    have ih := fetchLoop_giveUpAt responses i rem (used + 1) (by omega)
      (fun j hj => by
        have := hprev (j + 1) (by omega)
        rwa [show used + (j + 1) = used + 1 + j by omega] at this)
      (by rwa [show used + 1 + i = used + (i + 1) by omega])
    rw [ih]
    rw [show used + 1 + i + 1 = used + (i + 1) + 1 by omega]

/-! ## Claim C5 -/

/-- C5: when every delivered decoded body carries the rate-limit marker
key, the fetch makes at least two attempts, makes no more than the
configured maximum number of attempts (default 5), and after the final
attempt returns None; the model is a total function, so no exception
crosses the boundary. -/
theorem c5 (k : String) (hk : k ≠ "") (envKey : Option String)
    (maxRetries : Nat) (hm : 2 ≤ maxRetries) (responses : Nat → HttpOutcome)
    (hresp : ∀ i, i < maxRetries → ∃ s d, responses i = .resp s (.json d)
      ∧ s < 400 ∧ hasKey d "Note" = true) :
    (fetch_daily_time_series (some k) envKey maxRetries responses).1 = none
    ∧ 2 ≤ (fetch_daily_time_series (some k) envKey maxRetries responses).2
    ∧ (fetch_daily_time_series (some k) envKey maxRetries responses).2 ≤ maxRetries := by
  have hfetch : fetch_daily_time_series (some k) envKey maxRetries responses
      = (none, maxRetries) := by
    show (if k = "" then ((none : Option JsonData), 0)
      else fetchLoop responses maxRetries 0) = (none, maxRetries)
    rw [if_neg hk]
    have := fetchLoop_allRetry responses maxRetries 0 (fun i _ hi2 => by
      obtain ⟨s, d, he, hs, hn⟩ := hresp i (by omega)
      rw [he]
      exact stepOf_note s hs d hn)
    rw [this, show 0 + maxRetries = maxRetries by omega]
  rw [hfetch]
  exact ⟨rfl, hm, Nat.le_refl maxRetries⟩

/-- C5, witness: five attempts all answered with a Note body give None
after exactly the default five attempts. -/
theorem c5_witness :
    (fetch_daily_time_series (some "key") none 5
      (fun _ => .resp 200 (.json [("Note", [])]))).1 = none
    ∧ 2 ≤ (fetch_daily_time_series (some "key") none 5
      (fun _ => .resp 200 (.json [("Note", [])]))).2
    ∧ (fetch_daily_time_series (some "key") none 5
      (fun _ => .resp 200 (.json [("Note", [])]))).2 ≤ 5 :=
  c5 "key" (by decide) none 5 (by omega) _
    (fun i _ => ⟨200, [("Note", [])], rfl, by omega, rfl⟩)

/-! ## Claim C6 -/

/-- C6, counterexample. The claim quantifies over every decoded body that
contains the error-message key; the body here contains it, yet because
the rate-limit marker key is checked first the fetcher retries until
exhaustion: five attempts are made, not one. -/
theorem c6_counterexample :
    fetch_daily_time_series (some "key") none 5
      (fun _ => .resp 200 (.json noteAndError)) = (none, 5)
    ∧ (fetch_daily_time_series (some "key") none 5
      (fun _ => .resp 200 (.json noteAndError))).2 ≠ 1 :=
  ⟨rfl, by intro h; rw [show (fetch_daily_time_series (some "key") none 5
      (fun _ => .resp 200 (.json noteAndError))).2 = 5 from rfl] at h; omega⟩

/-- C6, amended: a decoded response body that contains the error-message
key and does not contain the rate-limit marker key makes the fetcher
return None on that very attempt, with zero further retry attempts. -/
theorem c6_amended (k : String) (hk : k ≠ "") (envKey : Option String)
    (maxRetries i : Nat) (hi : i < maxRetries) (responses : Nat → HttpOutcome)
    (hprev : ∀ j, j < i → stepOf (responses j) = .retry)
    (s : Nat) (d : JsonData) (hresp : responses i = .resp s (.json d))
    (hs : s < 400) (herr : hasKey d "Error Message" = true)
    (hnote : hasKey d "Note" = false) :
    fetch_daily_time_series (some k) envKey maxRetries responses = (none, i + 1) := by
  show (if k = "" then ((none : Option JsonData), 0)
    else fetchLoop responses maxRetries 0) = (none, i + 1)
  rw [if_neg hk]
  have := fetchLoop_giveUpAt responses i maxRetries 0 hi
    (fun j hj => by rw [show 0 + j = j by omega]; exact hprev j hj)
    (by rw [show 0 + i = i by omega, hresp]
        exact stepOf_errorMessage s hs d hnote herr)
  rw [this, show 0 + i + 1 = i + 1 by omega]

/-- C6, witness for the amended theorem: an error-message body without the
marker on the first attempt gives None after exactly one attempt. -/
theorem c6_amended_witness :
    fetch_daily_time_series (some "key") none 5
      (fun _ => .resp 200 (.json [("Error Message", [])])) = (none, 0 + 1) :=
  c6_amended "key" (by decide) none 5 0 (by omega) _
    (fun j hj => absurd hj (by omega))
    200 [("Error Message", [])] rfl (by omega) rfl rfl

/-! ## Claim C9 -/

/-- C9: a None credential argument with no credential in the environment,
or with the empty string there, makes the fetcher return None at once:
zero attempts are made and the response oracle is never consulted. -/
theorem c9 (envKey : Option String) (henv : envKey = none ∨ envKey = some "")
    (maxRetries : Nat) (responses : Nat → HttpOutcome) :
    fetch_daily_time_series none envKey maxRetries responses = (none, 0) := by
  rcases henv with h | h <;> subst h <;> rfl

/-- C9, witness: both the missing-variable case and the empty-string case
at a concrete oracle. -/
theorem c9_witness :
    fetch_daily_time_series none none 5 (fun _ => .netExc) = (none, 0)
    ∧ fetch_daily_time_series none (some "") 5 (fun _ => .netExc) = (none, 0) :=
  ⟨c9 none (Or.inl rfl) 5 _, c9 (some "") (Or.inr rfl) 5 _⟩

/-! ## Store lemmas -/

lemma chunksOf_nil (bs : Nat) : chunksOf bs ([] : List α) = [] := by
  unfold chunksOf
  split <;> rfl

lemma chunksOf_cons (bs : Nat) (hbs : bs ≠ 0) (x : α) (xs : List α) :
    chunksOf bs (x :: xs)
      = (x :: xs).take bs :: chunksOf bs ((x :: xs).drop bs) := by
  rw [chunksOf]
  simp [hbs]

lemma chunksOf_ne_nil (bs : Nat) (hbs : bs ≠ 0) (x : α) (xs : List α) :
    chunksOf bs (x :: xs) ≠ [] := by
  rw [chunksOf_cons bs hbs x xs]
  simp

lemma chunksOf_flatten (bs : Nat) (hbs : bs ≠ 0) : ∀ (l : List α),
    (chunksOf bs l).flatten = l
  | [] => by rw [chunksOf_nil]; rfl
  | x :: xs => by
    rw [chunksOf_cons bs hbs x xs, List.flatten_cons,
      chunksOf_flatten bs hbs ((x :: xs).drop bs), List.take_append_drop]
termination_by l => l.length
decreasing_by
  simpa using Nat.sub_lt (Nat.succ_pos xs.length) (Nat.pos_of_ne_zero hbs)

lemma chunksOf_length (bs : Nat) (hbs : bs ≠ 0) : ∀ (l : List α), l ≠ [] →
    (chunksOf bs l).length = (l.length + bs - 1) / bs
  | [], h => absurd rfl h
  | x :: xs, _ => by
    rw [chunksOf_cons bs hbs x xs]
    by_cases hle : xs.length + 1 ≤ bs
    · rw [List.drop_eq_nil_of_le (by simpa using hle), chunksOf_nil]
      simp only [List.length_cons, List.length_nil]
      rw [show xs.length + 1 + bs - 1 = xs.length + bs by omega,
        Nat.add_div_right _ (Nat.pos_of_ne_zero hbs),
        Nat.div_eq_of_lt (by omega)]
    · have hd : (x :: xs).drop bs ≠ [] := by
        intro hnil
        have := congrArg List.length hnil
        simp at this
        omega
      rw [List.length_cons,
        chunksOf_length bs hbs ((x :: xs).drop bs) hd, List.length_drop]
      simp only [List.length_cons]
      rw [show xs.length + 1 - bs + bs - 1 = xs.length by omega,
        show xs.length + 1 + bs - 1 = xs.length + bs by omega,
        Nat.add_div_right _ (Nat.pos_of_ne_zero hbs)]
termination_by l => l.length
decreasing_by
  simpa using Nat.sub_lt (Nat.succ_pos xs.length) (Nat.pos_of_ne_zero hbs)

lemma chunksOf_dropLast (bs : Nat) (hbs : bs ≠ 0) : ∀ (l : List α),
    ∀ ch ∈ (chunksOf bs l).dropLast, ch.length = bs
  | [], ch, h => by rw [chunksOf_nil] at h; simp at h
  | x :: xs, ch, h => by
    rw [chunksOf_cons bs hbs x xs] at h
    by_cases hle : xs.length + 1 ≤ bs
    · rw [List.drop_eq_nil_of_le (by simpa using hle), chunksOf_nil] at h
      simp at h
    · have hd : (x :: xs).drop bs ≠ [] := by
        intro hnil
        have := congrArg List.length hnil
        simp at this
        omega
      have hne : chunksOf bs ((x :: xs).drop bs) ≠ [] := by
        rcases hdrop : (x :: xs).drop bs with _ | ⟨y, ys⟩
        · exact absurd hdrop hd
        · exact chunksOf_ne_nil bs hbs y ys
      rw [List.dropLast_cons_of_ne_nil hne] at h
      rcases List.mem_cons.mp h with rfl | hmem
      · rw [List.length_take]
        simp only [List.length_cons]
        omega
      · exact chunksOf_dropLast bs hbs ((x :: xs).drop bs) ch hmem
termination_by l => l.length
decreasing_by
  simpa using Nat.sub_lt (Nat.succ_pos xs.length) (Nat.pos_of_ne_zero hbs)

lemma chunksOf_getLast (bs : Nat) (hbs : bs ≠ 0) : ∀ (l : List α), ∀ ch,
    (chunksOf bs l).getLast? = some ch →
    ch.length = if l.length % bs = 0 then bs else l.length % bs
  | [], ch, h => by rw [chunksOf_nil] at h; simp at h
  | x :: xs, ch, h => by
    rw [chunksOf_cons bs hbs x xs] at h
    by_cases hle : xs.length + 1 ≤ bs
    · rw [List.drop_eq_nil_of_le (by simpa using hle), chunksOf_nil] at h
      simp only [List.getLast?_singleton, Option.some.injEq] at h
      subst h
      rw [List.length_take]
      simp only [List.length_cons]
      rcases Nat.lt_or_ge (xs.length + 1) bs with hlt | hge
      · rw [Nat.mod_eq_of_lt hlt, if_neg (by omega)]
        omega
      · have hn : xs.length + 1 = bs := by omega
        rw [hn, Nat.mod_self, if_pos rfl]
        omega
    · have hd : (x :: xs).drop bs ≠ [] := by
        intro hnil
        have := congrArg List.length hnil
        simp at this
        omega
      have hne : chunksOf bs ((x :: xs).drop bs) ≠ [] := by
        rcases hdrop : (x :: xs).drop bs with _ | ⟨y, ys⟩
        · exact absurd hdrop hd
        · exact chunksOf_ne_nil bs hbs y ys
      rw [List.getLast?_cons] at h
      rcases hgl : (chunksOf bs ((x :: xs).drop bs)).getLast? with _ | z
      · exact absurd (List.getLast?_eq_none_iff.mp hgl) hne
      · rw [hgl] at h
        simp only [Option.getD_some, Option.some.injEq] at h
        subst h
        have ih := chunksOf_getLast bs hbs ((x :: xs).drop bs) z hgl
        rw [List.length_drop] at ih
        simp only [List.length_cons] at ih ⊢
        have hmod : (xs.length + 1) % bs = (xs.length + 1 - bs) % bs := by
          conv_lhs => rw [show xs.length + 1 = (xs.length + 1 - bs) + bs by omega]
          rw [Nat.add_mod_right]
        rw [hmod]
        exact ih
termination_by l => l.length
decreasing_by
  simpa using Nat.sub_lt (Nat.succ_pos xs.length) (Nat.pos_of_ne_zero hbs)

lemma runChunkGo_error_msg (ok : Nat → Bool) : ∀ (fuel a : Nat) (e : String),
    runChunkGo ok fuel a = .error e → e = "Failed to upsert batch after retries"
  | 0, a, e, h => by simp [runChunkGo] at h
  | fuel + 1, a, e, h => by
    rw [runChunkGo] at h
    by_cases hok : ok a
    · rw [if_pos hok] at h
      simp at h
    · rw [if_neg hok] at h
      by_cases hf : fuel = 0
      · rw [if_pos hf] at h
        simpa using h.symm
      · rw [if_neg hf] at h
        exact runChunkGo_error_msg ok fuel (a + 1) e h

lemma runChunkGo_ne_ok_false (ok : Nat → Bool) : ∀ (fuel a : Nat), fuel ≠ 0 →
    runChunkGo ok fuel a ≠ .ok false
  | 0, a, h => absurd rfl h
  | fuel + 1, a, _ => by
    rw [runChunkGo]
    by_cases hok : ok a
    · rw [if_pos hok]
      simp
    · rw [if_neg hok]
      by_cases hf : fuel = 0
      · rw [if_pos hf]
        simp
      · rw [if_neg hf]
        exact runChunkGo_ne_ok_false ok fuel (a + 1) hf

lemma runChunkGo_allFail (ok : Nat → Bool) : ∀ (fuel a : Nat), fuel ≠ 0 →
    (∀ i, i < fuel → ok (a + i) = false) →
    runChunkGo ok fuel a = .error "Failed to upsert batch after retries"
  | 0, a, h, _ => absurd rfl h
  | fuel + 1, a, _, hfail => by
    rw [runChunkGo]
    have h0 : ok a = false := by
      have := hfail 0 (by omega)
      rwa [Nat.add_zero] at this
    rw [if_neg (by simp [h0])]
    by_cases hf : fuel = 0
    · rw [if_pos hf]
    · rw [if_neg hf]
      exact runChunkGo_allFail ok fuel (a + 1) hf (fun i hi => by
        have := hfail (i + 1) (by omega)
        rwa [show a + (i + 1) = a + 1 + i by omega] at this)

lemma runChunkGo_first_ok (ok : Nat → Bool) (fuel : Nat) (hf : fuel ≠ 0)
    (h0 : ok 0 = true) : runChunkGo ok fuel 0 = .ok true := by
  rcases fuel with _ | f
  · exact absurd rfl hf
  · rw [runChunkGo, if_pos h0]

lemma upsertGo_allOk (maxRetries : Nat) (hm : maxRetries ≠ 0)
    (writeOk : Nat → Nat → Bool) (hok : ∀ j a, writeOk j a = true) :
    ∀ (cs : List (List α)) (idx total : Nat),
    upsertGo maxRetries writeOk cs idx total
      = .ok (total + (cs.map List.length).sum)
  | [], idx, total => by simp [upsertGo]
  | c :: cs, idx, total => by
    rw [upsertGo]
    rw [show runChunk (writeOk idx) maxRetries = .ok true from
      runChunkGo_first_ok (writeOk idx) maxRetries hm (hok idx 0)]
    rw [upsertGo_allOk maxRetries hm writeOk hok cs (idx + 1) (total + c.length)]
    simp only [List.map_cons, List.sum_cons]
    rw [show total + c.length + (cs.map List.length).sum
      = total + (c.length + (cs.map List.length).sum) by omega]

lemma upsertGo_fail (maxRetries : Nat) (hm : maxRetries ≠ 0)
    (writeOk : Nat → Nat → Bool) :
    ∀ (cs : List (List α)) (idx total j : Nat), j < cs.length →
    (∀ a, a < maxRetries → writeOk (idx + j) a = false) →
    upsertGo maxRetries writeOk cs idx total
      = .error "Failed to upsert batch after retries"
  | [], idx, total, j, hj, _ => by simp at hj
  | c :: cs, idx, total, j, hj, hfail => by
    rw [upsertGo]
    rcases hrc : runChunk (writeOk idx) maxRetries with e | b
    · rw [runChunkGo_error_msg (writeOk idx) maxRetries 0 e hrc]
    · rcases b with _ | _
      · exact absurd hrc (runChunkGo_ne_ok_false (writeOk idx) maxRetries 0 hm)
      · rcases j with _ | j
        · have : runChunk (writeOk idx) maxRetries
              = .error "Failed to upsert batch after retries" := by
            apply runChunkGo_allFail (writeOk idx) maxRetries 0 hm
            intro i hi
            rw [Nat.zero_add]
            have := hfail i hi
            rwa [Nat.add_zero] at this
          rw [this] at hrc
          simp at hrc
        · exact upsertGo_fail maxRetries hm writeOk cs (idx + 1) (total + c.length)
            j (by simpa using hj) (fun a ha => by
              have := hfail a ha
              rwa [show idx + (j + 1) = idx + 1 + j by omega] at this)

/-! ## Claim C8 -/

/-- C8: the empty record list returns a count of 0 immediately, with no
error; the result does not depend on the write oracle at all, which is
the model-level statement that no database write or retry is performed. -/
theorem c8 : ∀ (batchSize maxRetries : Nat) (writeOk : Nat → Nat → Bool),
    upsert_stock_rows ([] : List Unit) batchSize maxRetries writeOk = .ok 0 :=
  fun _ _ _ => rfl

/-! ## Claim C3 -/

/-- C3: a non-empty list of n records with a positive chunk size c is
split into ceil(n / c) consecutive chunks, every non-final chunk has
exactly c records, the final chunk has n mod c records when c does not
divide n (and c records otherwise), and when every chunk write succeeds
the call returns exactly n. -/
theorem c3 (rows : List α) (c maxRetries : Nat) (hrows : rows ≠ [])
    (hc : c ≠ 0) (hm : maxRetries ≠ 0) (writeOk : Nat → Nat → Bool)
    (hok : ∀ j a, writeOk j a = true) :
    (chunksOf c rows).length = (rows.length + c - 1) / c
    ∧ (∀ ch ∈ (chunksOf c rows).dropLast, ch.length = c)
    ∧ (∀ last, (chunksOf c rows).getLast? = some last →
        last.length = if rows.length % c = 0 then c else rows.length % c)
    ∧ upsert_stock_rows rows c maxRetries writeOk = .ok rows.length := by
  refine ⟨chunksOf_length c hc rows hrows, chunksOf_dropLast c hc rows,
    fun last h => chunksOf_getLast c hc rows last h, ?_⟩
  unfold upsert_stock_rows
  rw [if_neg (by simpa using hrows)]
  rw [upsertGo_allOk maxRetries hm writeOk hok (chunksOf c rows) 0 0]
  rw [show ((chunksOf c rows).map List.length).sum
    = (chunksOf c rows).flatten.length from (List.length_flatten _).symm]
  rw [chunksOf_flatten c hc rows]
  rw [Nat.zero_add]

/-- C3, witness: 450 records with chunk size 200 give 3 chunks sized
200, 200, 50, and a fully successful run returns 450. -/
theorem c3_witness :
    (chunksOf 200 (List.replicate 450 ())).length = (450 + 200 - 1) / 200
    ∧ (∀ ch ∈ (chunksOf 200 (List.replicate 450 ())).dropLast, ch.length = 200)
    ∧ (∀ last, (chunksOf 200 (List.replicate 450 ())).getLast? = some last →
        last.length = if (450 : Nat) % 200 = 0 then 200 else 450 % 200)
    ∧ upsert_stock_rows (List.replicate 450 ()) 200 3 (fun _ _ => true) = .ok 450 := by
  have h := c3 (List.replicate 450 ()) 200 3
    (by intro hnil
        have := congrArg List.length hnil
        rw [List.length_replicate, List.length_nil] at this
        omega)
    (by omega) (by omega) (fun _ _ => true) (fun _ _ => rfl)
  rwa [List.length_replicate] at h

/-! ## Claim C2 -/

/-- C2, counterexample. The claim says the raised error includes the
failing chunk index and its row count; the raised RuntimeError message
is the fixed string, which contains no digit at all, hence neither the
index nor the row count of any chunk. -/
theorem c2_counterexample :
    upsert_stock_rows [()] 200 3 (fun _ _ => false)
      = .error "Failed to upsert batch after retries"
    ∧ ∀ ch ∈ "Failed to upsert batch after retries".data, ¬ ch.isDigit := by
  have hch : chunksOf 200 [()] = [[()]] := by
    rw [chunksOf_cons 200 (by omega) () [], show List.drop 200 [()] = [] from rfl,
      chunksOf_nil, show List.take 200 [()] = [()] from rfl]
  constructor
  · unfold upsert_stock_rows
    rw [if_neg (by simp), hch]
    rfl
  · decide

/-- C2, amended: on a non-empty record list, if some chunk fails on every
one of its bounded retry attempts, the operation terminates with a
raised RuntimeError; its message is the fixed string (the chunk index
and row count appear only in log records, not in the raised error). -/
theorem c2_amended (rows : List α) (batchSize maxRetries : Nat)
    (writeOk : Nat → Nat → Bool) (hbs : batchSize ≠ 0) (hm : maxRetries ≠ 0)
    (j : Nat) (hj : j < (chunksOf batchSize rows).length)
    (hfail : ∀ a, a < maxRetries → writeOk j a = false) :
    upsert_stock_rows rows batchSize maxRetries writeOk
      = .error "Failed to upsert batch after retries" := by
  have hrows : rows ≠ [] := by
    intro hnil
    subst hnil
    rw [chunksOf_nil] at hj
    simp at hj
  unfold upsert_stock_rows
  rw [if_neg (by simpa using hrows)]
  exact upsertGo_fail maxRetries hm writeOk (chunksOf batchSize rows) 0 0 j hj
    (fun a ha => by
      rw [Nat.zero_add]
      exact hfail a ha)

/-- C2, witness for the amended theorem: a single-row batch whose only
chunk fails all three attempts raises the fixed error. -/
theorem c2_amended_witness :
    upsert_stock_rows [()] 200 3 (fun _ _ => false)
      = .error "Failed to upsert batch after retries" :=
  c2_amended [()] 200 3 (fun _ _ => false) (by omega) (by omega) 0
    (by rw [chunksOf_cons 200 (by omega) () []]; simp)
    (fun a _ => rfl)
